import Mathlib

/-
  Shallow embedding of src/app.py (a Jupyter-notebook variation pipeline).

  The program loads a notebook (a JSON dict, possibly None after a failed
  load), extracts its cells, asks a remote text-completion service for a
  variation of each recognized cell, and writes the notebook back with each
  recognized cell replaced by the variation split into lines.

  Modelling decisions:
  - A notebook dict is a record with an optional cells key plus opaque
    further keys (meta).  Python truthiness of the dict (non-empty) is
    modelled by notebook_truthy.  A missing notebook (None) is Option.none.
  - The remote completion service is an opaque parameter
    remote : CompletionRequest -> Except ServiceError Completion.
    The try/except around the call and the guard on the choices list are
    translated faithfully from generate_variation_with_function_call.
  - Fallible functions return Except; the Python exceptions TypeError
    (subscripting None), KeyError (missing dict key) and IndexError
    (variations[i] out of range) become SaveError / ExtractError values.
  - Writing the output file is represented by the Notebook value returned
    by save_variations in the .ok case; an error aborts before the write,
    exactly as the Python IndexError propagates past the json.dump call.
-/

namespace App

/-- One choice of a completion response (the Python completion.choices[0]). -/
structure CompletionChoice where
  text : String
deriving DecidableEq, Repr

/-- The response object of openai.completions.create: its choices list. -/
structure Completion where
  choices : List CompletionChoice
deriving DecidableEq, Repr

/-- An opaque service-level error (openai.Error in the source). -/
structure ServiceError where
  msg : String
deriving DecidableEq, Repr

/-- The request sent by openai.completions.create in
generate_variation_with_function_call.  The sampling parameters
temperature=0.7 and stop=None are opaque to this embedding and the claims. -/
structure CompletionRequest where
  model : String
  prompt : String
  max_tokens : Nat
  n : Nat
deriving DecidableEq, Repr

/-- One notebook cell: its cell_type (role), its source (a list of text
fragments), and any further opaque keys, kept as an association list. -/
structure Cell where
  cell_type : String
  source : List String
  meta : List (String × String)
deriving DecidableEq, Repr

/-- A notebook dict: the cells key (none when the key is missing) plus any
further opaque keys.  None (a failed load) is modelled as Option.none of
this type at use sites. -/
structure Notebook where
  cells : Option (List Cell)
  meta : List (String × String)
deriving DecidableEq, Repr

/-- The record appended per cell by process_cells_with_function_call. -/
structure VariationRecord where
  role : String
  original : String
  variation : String
deriving DecidableEq, Repr

inductive ExtractError where
  | keyError
deriving DecidableEq, Repr

inductive SaveError where
  | typeError
  | keyError
  | indexOutOfRange
deriving DecidableEq, Repr

/-- Python str of a bool, as interpolated into the prompt f-string. -/
def pyReprBool (b : Bool) : String :=
  if b then "True" else "False"

/-- Python str of an optional int (None or a literal), as interpolated into
the prompt f-string. -/
def pyReprOptInt : Option Int → String
  | none => "None"
  | some n => toString n

/-- The whitespace class of Python str.strip (str.isspace): the six ASCII
whitespace characters, the file and field separators 1c-1f, next line 85,
no-break space a0, ogham space 1680, the Zs range 2000-200a, line separator
2028, paragraph separator 2029, narrow no-break space 202f, mathematical
space 205f and ideographic space 3000. -/
def pyIsSpace (c : Char) : Bool :=
  c = ' ' || c = '\t' || c = '\n' || c = '\r' ||
  c = Char.ofNat 0x0b || c = Char.ofNat 0x0c ||
  c = Char.ofNat 0x1c || c = Char.ofNat 0x1d ||
  c = Char.ofNat 0x1e || c = Char.ofNat 0x1f ||
  c = Char.ofNat 0x85 || c = Char.ofNat 0xa0 ||
  c = Char.ofNat 0x1680 ||
  (0x2000 ≤ c.toNat && c.toNat ≤ 0x200a) ||
  c = Char.ofNat 0x2028 || c = Char.ofNat 0x2029 ||
  c = Char.ofNat 0x202f || c = Char.ofNat 0x205f ||
  c = Char.ofNat 0x3000

/-- Python str.strip(): drop leading and trailing characters of the full
Python whitespace class pyIsSpace. -/
def pyStrip (s : String) : String :=
  String.mk (((s.data.dropWhile pyIsSpace).reverse.dropWhile pyIsSpace).reverse)

/-- The line boundary characters recognized by Python str.splitlines. -/
def isLineBoundary (c : Char) : Bool :=
  c = '\n' || c = '\r' ||
  c = Char.ofNat 0x0b || c = Char.ofNat 0x0c ||
  c = Char.ofNat 0x1c || c = Char.ofNat 0x1d || c = Char.ofNat 0x1e ||
  c = Char.ofNat 0x85 || c = Char.ofNat 0x2028 || c = Char.ofNat 0x2029

/-- Python str.splitlines(keepends=True) on a character list: acc holds the
current line read so far, in reverse.  The pair CR LF counts as a single
boundary; every boundary character stays attached to its line; a final line
without a trailing boundary is still emitted, and the empty string gives no
lines at all. -/
def splitlinesK : List Char → List Char → List (List Char)
  | [], acc => if acc.isEmpty then [] else [acc.reverse]
  | [c], acc =>
      if isLineBoundary c then (acc.reverse ++ [c]) :: splitlinesK [] []
      else splitlinesK [] (c :: acc)
  | c :: c2 :: rest, acc =>
      if c = '\r' ∧ c2 = '\n' then
        (acc.reverse ++ ['\r', '\n']) :: splitlinesK rest []
      else if isLineBoundary c then
        (acc.reverse ++ [c]) :: splitlinesK (c2 :: rest) []
      else
        splitlinesK (c2 :: rest) (c :: acc)

/-- variation.splitlines(keepends=True) from save_variations. -/
def splitlines_keepends (s : String) : List String :=
  (splitlinesK s.data []).map String.mk

/-- Python string join with the empty separator, applied to the source
fragments of a cell in process_cells_with_function_call. -/
def strJoin (l : List String) : String :=
  String.join l

/-- The recognized cell_type list, hard-coded twice in the source
(process_cells_with_function_call and save_variations). -/
def recognized_roles : List String :=
  ["code", "markdown", "system", "tools", "user", "assistant", "tool_use", "tool_output"]

/-- role in recognized_roles. -/
def recognizedRole (role : String) : Bool :=
  recognized_roles.contains role

/-- Python dict truthiness of the notebook argument: None and the empty dict
are falsy, any dict with at least one key is truthy. -/
def notebook_truthy : Option Notebook → Bool
  | none => false
  | some nb =>
      match nb.cells, nb.meta with
      | none, [] => false
      | _, _ => true

/-- extract_cells (src/app.py lines 92-103):
returns notebook with key cells if notebook is truthy, else the empty list.
Looking up a missing cells key on a truthy dict raises KeyError. -/
def extract_cells (notebook : Option Notebook) : Except ExtractError (List Cell) :=
  match notebook with
  | none => .ok []
  | some nb =>
      if notebook_truthy (some nb) then
        match nb.cells with
        | some cs => .ok cs
        | none => .error .keyError
      else
        .ok []

/-- The f-string prompt of generate_variation_with_function_call
(src/app.py lines 153-164). -/
def build_prompt (message role language context : String)
    (preserve_structure : Bool) (target_audience : String)
    (length_constraint : Option Int) (include_documentation : Bool) : String :=
  "\n    You are a helpful assistant that generates variations of messages while keeping their meaning and functionality the same. \n    Please vary the following "
    ++ role
    ++ " message while preserving its core elements, functionality, and including necessary documentation strings:\n    "
    ++ message
    ++ "\n    \n    Context: "
    ++ context
    ++ "\n    Programming Language: "
    ++ language
    ++ "\n    Preserve Structure: "
    ++ pyReprBool preserve_structure
    ++ "\n    Target Audience: "
    ++ target_audience
    ++ "\n    Length Constraint: "
    ++ pyReprOptInt length_constraint
    ++ "\n    Include Documentation: "
    ++ pyReprBool include_documentation
    ++ "\n    "

/-- The openai.completions.create request with its literal parameters
(src/app.py lines 167-174). -/
def mk_completion_request (prompt : String) : CompletionRequest :=
  { model := "gpt-4", prompt := prompt, max_tokens := 150, n := 1 }

/-- generate_variation_with_function_call (src/app.py lines 132-183):
builds the prompt, calls the remote service; on a service error returns the
message unchanged; on success returns the first choice text stripped when
the choices list is non-empty, else the message unchanged.  The Python
defaults target_audience="general" and length_constraint=None are passed
explicitly by the one caller. -/
def generate_variation_with_function_call
    (remote : CompletionRequest → Except ServiceError Completion)
    (message role language context : String)
    (preserve_structure include_documentation : Bool)
    (target_audience : String) (length_constraint : Option Int) : String :=
  let prompt := build_prompt message role language context preserve_structure
      target_audience length_constraint include_documentation
  match remote (mk_completion_request prompt) with
  | .error _ => message
  | .ok completion =>
      match completion.choices with
      | choice :: _ => pyStrip choice.text
      | [] => message

/-- The loop body of process_cells_with_function_call (src/app.py lines
197-214): one VariationRecord per cell. -/
def vary_cell (remote : CompletionRequest → Except ServiceError Completion)
    (cell : Cell) : VariationRecord :=
  let role := cell.cell_type
  let source := strJoin cell.source
  if recognizedRole role then
    { role := role, original := source,
      variation := generate_variation_with_function_call remote source role
        "python" "This is part of a Jupyter notebook." true true "general" (some 150) }
  else
    { role := role, original := source, variation := source }

/-- process_cells_with_function_call (src/app.py lines 185-216): the for
loop appending one record per cell, in order. -/
def process_cells_with_function_call
    (remote : CompletionRequest → Except ServiceError Completion) :
    List Cell → List VariationRecord
  | [] => []
  | cell :: rest =>
      vary_cell remote cell :: process_cells_with_function_call remote rest

/-- The loop of save_variations (src/app.py lines 118-121): walks the cells
with index i; a recognized cell has its source replaced by
variations[i].variation split into lines (IndexError when i is out of range
of variations); other cells are left untouched. -/
def update_cells (variations : List VariationRecord) :
    List Cell → Nat → Except SaveError (List Cell)
  | [], _ => .ok []
  | cell :: rest, i =>
      if recognizedRole cell.cell_type then
        match variations[i]? with
        | none => .error .indexOutOfRange
        | some v =>
            match update_cells variations rest (i + 1) with
            | .error e => .error e
            | .ok rest2 =>
                .ok ({ cell with source := splitlines_keepends v.variation } :: rest2)
      else
        match update_cells variations rest (i + 1) with
        | .error e => .error e
        | .ok rest2 => .ok (cell :: rest2)

/-- save_variations (src/app.py lines 105-126): subscripting a None
notebook raises TypeError; a dict without the cells key raises KeyError;
otherwise the loop runs and, when it completes, the updated notebook is
written out (the .ok value).  Any error aborts before the write, since
json.dump comes after the loop and only IOError is caught. -/
def save_variations (variations : List VariationRecord)
    (original_notebook : Option Notebook) : Except SaveError Notebook :=
  match original_notebook with
  | none => .error .typeError
  | some nb =>
      match nb.cells with
      | none => .error .keyError
      | some cs =>
          match update_cells variations cs 0 with
          | .error e => .error e
          | .ok cs2 => .ok { nb with cells := some cs2 }

/-- The per-index effect of a successful save loop: a recognized cell gets
variations[i+j] split into lines as its new source, any other cell is kept. -/
def rebuilt_cell (vs : List VariationRecord) (i : Nat) (cell : Cell) : Cell :=
  if recognizedRole cell.cell_type then
    match vs[i]? with
    | some v => { cell with source := splitlines_keepends v.variation }
    | none => cell
  else cell

/-
  Concrete fixtures used by witness theorems.
-/

/-- A recognized code cell, as in the end-to-end scenario of the spec. -/
def code_cell : Cell :=
  { cell_type := "code", source := ["print(1)"], meta := [] }

/-- A cell whose role is outside the recognized set. -/
def raw_cell : Cell :=
  { cell_type := "raw", source := ["unchanged"], meta := [] }

/-- A remote service that always raises a service-level error. -/
def failing_remote : CompletionRequest → Except ServiceError Completion :=
  fun _ => .error { msg := "service unavailable" }

/-- A remote service that always succeeds with one completion. -/
def ok_remote : CompletionRequest → Except ServiceError Completion :=
  fun _ => .ok { choices := [{ text := "  print(2)  " }] }

/-- The remote call for one cell as issued by
process_cells_with_function_call: the prompt built from the joined source
and the literal policy arguments of the call site. -/
def cell_request (cell : Cell) : CompletionRequest :=
  mk_completion_request (build_prompt (strJoin cell.source) cell.cell_type "python"
    "This is part of a Jupyter notebook." true "general" (some 150) true)

/-- The remote call for a given request either raised a service-level error
or returned a response with no completions. -/
def remote_fails_or_empty (remote : CompletionRequest → Except ServiceError Completion)
    (req : CompletionRequest) : Prop :=
  (∃ e, remote req = .error e) ∨ (∃ c, remote req = .ok c ∧ c.choices = [])

/-
  Helper lemmas shared by the claim theorems.
-/

lemma process_length (remote : CompletionRequest → Except ServiceError Completion)
    (cells : List Cell) :
    (process_cells_with_function_call remote cells).length = cells.length := by
  induction cells with
  | nil => rfl
  | cons c cs ih => simp [process_cells_with_function_call, ih]

lemma process_get? (remote : CompletionRequest → Except ServiceError Completion)
    (cells : List Cell) (i : Nat) :
    (process_cells_with_function_call remote cells)[i]? =
      cells[i]?.map (vary_cell remote) := by
  induction cells generalizing i with
  | nil => cases i <;> rfl
  | cons c cs ih =>
      cases i with
      | zero => simp [process_cells_with_function_call]
      | succ n => simpa [process_cells_with_function_call] using ih n

lemma data_foldl_append (l : List String) (s : String) :
    (l.foldl (· ++ ·) s).data = s.data ++ (l.map String.data).flatten := by
  induction l generalizing s with
  | nil => simp
  | cons t l ih => simp [ih, String.data_append]

lemma data_strJoin (l : List String) :
    (strJoin l).data = (l.map String.data).flatten := by
  simpa [strJoin, String.join] using data_foldl_append l ""

lemma splitlinesK_flatten (cs acc : List Char) :
    (splitlinesK cs acc).flatten = acc.reverse ++ cs := by
  induction cs, acc using splitlinesK.induct with
  | case1 acc h => simp_all [splitlinesK, List.isEmpty_iff]
  | case2 acc h => simp_all [splitlinesK, List.isEmpty_iff]
  | case3 c acc h ih => simp_all [splitlinesK]
  | case4 c acc h ih => simp_all [splitlinesK]
  | case5 c c2 rest acc h ih =>
      obtain ⟨h1, h2⟩ := h
      subst h1; subst h2
      simp_all [splitlinesK]
  | case6 c c2 rest acc h h2 ih =>
      rw [splitlinesK, if_neg h, if_pos h2]
      simp_all
  | case7 c c2 rest acc h h2 ih =>
      rw [splitlinesK, if_neg h]
      simp_all [h2]

lemma strJoin_splitlines_keepends (s : String) :
    strJoin (splitlines_keepends s) = s := by
  apply String.ext
  rw [data_strJoin]
  simp only [splitlines_keepends, List.map_map]
  have hmk : (String.data ∘ String.mk) = id := rfl
  rw [hmk, List.map_id]
  simpa using splitlinesK_flatten s.data []

lemma update_cells_outcomes (vs : List VariationRecord) (cs : List Cell) (i : Nat) :
    (∃ cs2, update_cells vs cs i = .ok cs2) ∨
      update_cells vs cs i = .error .indexOutOfRange := by
  induction cs generalizing i with
  | nil => exact Or.inl ⟨[], rfl⟩
  | cons c rest ih =>
      cases hrec : recognizedRole c.cell_type with
      | true =>
          cases hv : vs[i]? with
          | none =>
              right
              simp [update_cells, hrec, hv]
          | some v =>
              rcases ih (i + 1) with ⟨cs2, hok⟩ | herr
              · left
                simp [update_cells, hrec, hv, hok]
              · right
                simp [update_cells, hrec, hv, herr]
      | false =>
          rcases ih (i + 1) with ⟨cs2, hok⟩ | herr
          · left
            simp [update_cells, hrec, hok]
          · right
            simp [update_cells, hrec, herr]

lemma update_cells_error_iff (vs : List VariationRecord) (cs : List Cell) (i : Nat) :
    update_cells vs cs i = .error .indexOutOfRange ↔
      ∃ j cell, cs[j]? = some cell ∧ recognizedRole cell.cell_type = true ∧
        vs.length ≤ i + j := by
  induction cs generalizing i with
  | nil => simp [update_cells]
  | cons c rest ih =>
      cases hrec : recognizedRole c.cell_type with
      | true =>
          cases hv : vs[i]? with
          | none =>
              have hL : update_cells vs (c :: rest) i = .error .indexOutOfRange := by
                simp [update_cells, hrec, hv]
              refine ⟨fun _ => ⟨0, c, by simp, hrec, ?_⟩, fun _ => hL⟩
              have := List.getElem?_eq_none_iff.mp hv
              omega
          | some v =>
              have hlt : i < vs.length := by
                rcases List.getElem?_eq_some_iff.mp hv with ⟨hh, -⟩
                exact hh
              have hstep : update_cells vs (c :: rest) i = .error .indexOutOfRange ↔
                  update_cells vs rest (i + 1) = .error .indexOutOfRange := by
                cases hrest : update_cells vs rest (i + 1) with
                | ok cs2 => simp [update_cells, hrec, hv, hrest]
                | error e => simp [update_cells, hrec, hv, hrest]
              rw [hstep, ih]
              constructor
              · rintro ⟨j, cell, hg, hr, hlen⟩
                exact ⟨j + 1, cell, by simpa using hg, hr, by omega⟩
              · rintro ⟨j, cell, hg, hr, hlen⟩
                cases j with
                | zero => omega
                | succ j2 => exact ⟨j2, cell, by simpa using hg, hr, by omega⟩
      | false =>
          have hstep : update_cells vs (c :: rest) i = .error .indexOutOfRange ↔
              update_cells vs rest (i + 1) = .error .indexOutOfRange := by
            cases hrest : update_cells vs rest (i + 1) with
            | ok cs2 => simp [update_cells, hrec, hrest]
            | error e => simp [update_cells, hrec, hrest]
          rw [hstep, ih]
          constructor
          · rintro ⟨j, cell, hg, hr, hlen⟩
            exact ⟨j + 1, cell, by simpa using hg, hr, by omega⟩
          · rintro ⟨j, cell, hg, hr, hlen⟩
            cases j with
            | zero =>
                simp at hg
                subst hg
                simp_all
            | succ j2 => exact ⟨j2, cell, by simpa using hg, hr, by omega⟩

lemma update_cells_ok_spec (vs : List VariationRecord) (cs : List Cell) (i : Nat)
    (cs2 : List Cell) (hok : update_cells vs cs i = .ok cs2) :
    cs2.length = cs.length ∧
    ∀ j, cs2[j]? = cs[j]?.map (fun cell => rebuilt_cell vs (i + j) cell) := by
  induction cs generalizing i cs2 with
  | nil =>
      simp [update_cells] at hok
      subst hok
      simp
  | cons c rest ih =>
      cases hrec : recognizedRole c.cell_type with
      | true =>
          cases hv : vs[i]? with
          | none => simp [update_cells, hrec, hv] at hok
          | some v =>
              cases hrest : update_cells vs rest (i + 1) with
              | error e => simp [update_cells, hrec, hv, hrest] at hok
              | ok rest2 =>
                  simp [update_cells, hrec, hv, hrest] at hok
                  subst hok
                  obtain ⟨hlen, hget⟩ := ih (i + 1) rest2 hrest
                  refine ⟨by simp [hlen], ?_⟩
                  intro j
                  cases j with
                  | zero => simp [rebuilt_cell, hrec, hv]
                  | succ j2 =>
                      have harith : i + 1 + j2 = i + (j2 + 1) := by omega
                      simp only [List.getElem?_cons_succ]
                      rw [hget j2, harith]
      | false =>
          cases hrest : update_cells vs rest (i + 1) with
          | error e => simp [update_cells, hrec, hrest] at hok
          | ok rest2 =>
              simp [update_cells, hrec, hrest] at hok
              subst hok
              obtain ⟨hlen, hget⟩ := ih (i + 1) rest2 hrest
              refine ⟨by simp [hlen], ?_⟩
              intro j
              cases j with
              | zero => simp [rebuilt_cell, hrec]
              | succ j2 =>
                  have harith : i + 1 + j2 = i + (j2 + 1) := by omega
                  simp only [List.getElem?_cons_succ]
                  rw [hget j2, harith]

lemma update_cells_ok_of_covers (vs : List VariationRecord) (cs : List Cell) (i : Nat)
    (h : i + cs.length ≤ vs.length) :
    ∃ cs2, update_cells vs cs i = .ok cs2 := by
  rcases update_cells_outcomes vs cs i with hok | herr
  · exact hok
  · exfalso
    rcases (update_cells_error_iff vs cs i).mp herr with ⟨j, cell, hg, hr, hlen⟩
    have hj : j < cs.length := by
      rcases List.getElem?_eq_some_iff.mp hg with ⟨hh, -⟩
      exact hh
    omega

lemma rebuilt_cell_cell_type (vs : List VariationRecord) (i : Nat) (cell : Cell) :
    (rebuilt_cell vs i cell).cell_type = cell.cell_type := by
  unfold rebuilt_cell
  cases hrec : recognizedRole cell.cell_type
  · simp
  · cases hv : vs[i]? <;> simp

lemma rebuilt_cell_meta (vs : List VariationRecord) (i : Nat) (cell : Cell) :
    (rebuilt_cell vs i cell).meta = cell.meta := by
  unfold rebuilt_cell
  cases hrec : recognizedRole cell.cell_type
  · simp
  · cases hv : vs[i]? <;> simp

lemma rebuilt_cell_unrecognized (vs : List VariationRecord) (i : Nat) (cell : Cell)
    (h : recognizedRole cell.cell_type = false) :
    rebuilt_cell vs i cell = cell := by
  simp [rebuilt_cell, h]

lemma save_variations_error_iff (vs : List VariationRecord) (nb : Notebook)
    (cs : List Cell) (hc : nb.cells = some cs) :
    save_variations vs (some nb) = .error .indexOutOfRange ↔
      ∃ j cell, cs[j]? = some cell ∧ recognizedRole cell.cell_type = true ∧
        vs.length ≤ j := by
  have hiff := update_cells_error_iff vs cs 0
  simp only [Nat.zero_add] at hiff
  rw [← hiff]
  simp only [save_variations, hc]
  cases hu : update_cells vs cs 0 with
  | ok cs2 =>
      constructor
      · intro h
        exact absurd h (by simp)
      · intro h
        exact absurd h (by simp)
  | error e =>
      constructor
      · intro h
        have h2 : (Except.error e : Except SaveError Notebook) = .error .indexOutOfRange := h
        injection h2 with he
        rw [he]
      · intro h
        injection h with he
        rw [he]

lemma save_variations_outcomes (vs : List VariationRecord) (nb : Notebook)
    (cs : List Cell) (hc : nb.cells = some cs) :
    (∃ nb2, save_variations vs (some nb) = .ok nb2) ∨
      save_variations vs (some nb) = .error .indexOutOfRange := by
  simp only [save_variations, hc]
  rcases update_cells_outcomes vs cs 0 with ⟨cs2, hok⟩ | herr
  · rw [hok]
    exact Or.inl ⟨_, rfl⟩
  · rw [herr]
    exact Or.inr rfl

lemma save_variations_ok_spec (vs : List VariationRecord) (nb : Notebook)
    (cs : List Cell) (hc : nb.cells = some cs) (nb2 : Notebook)
    (hok : save_variations vs (some nb) = .ok nb2) :
    nb2.meta = nb.meta ∧
    ∃ cs2, nb2.cells = some cs2 ∧ cs2.length = cs.length ∧
      ∀ j : Nat, cs2[j]? = cs[j]?.map (rebuilt_cell vs j) := by
  simp only [save_variations, hc] at hok
  cases hu : update_cells vs cs 0 with
  | error e =>
      rw [hu] at hok
      cases hok
  | ok cs2 =>
      rw [hu] at hok
      injection hok with hnb2
      obtain ⟨hlen, hget⟩ := update_cells_ok_spec vs cs 0 cs2 hu
      subst hnb2
      refine ⟨rfl, cs2, rfl, hlen, ?_⟩
      intro j
      simpa using hget j

lemma save_variations_ok_of_covers (vs : List VariationRecord) (nb : Notebook)
    (cs : List Cell) (hc : nb.cells = some cs) (hlen : cs.length ≤ vs.length) :
    ∃ nb2, save_variations vs (some nb) = .ok nb2 := by
  rcases save_variations_outcomes vs nb cs hc with hok | herr
  · exact hok
  · exfalso
    rcases (save_variations_error_iff vs nb cs hc).mp herr with ⟨j, cell, hg, -, hj⟩
    have : j < cs.length := by
      rcases List.getElem?_eq_some_iff.mp hg with ⟨hh, -⟩
      exact hh
    omega

/-
  Claim theorems.
-/

/-- Claim C1: for every input sequence of blocks (cells), process returns an
ordered sequence of VariationRecords with exactly one record per input
block, in the same order as the input (the record at every index is the
image of the cell at that index); the empty input yields the empty result,
not an error. -/
theorem C1_one_record_per_block_in_order
    (remote : CompletionRequest → Except ServiceError Completion)
    (cells : List Cell) :
    (process_cells_with_function_call remote cells).length = cells.length ∧
    (∀ i : Nat, (process_cells_with_function_call remote cells)[i]? =
      cells[i]?.map (vary_cell remote)) ∧
    process_cells_with_function_call remote [] = [] :=
  ⟨process_length remote cells, fun i => process_get? remote cells i, rfl⟩

/-- Claim C4 (the recorded code bug, evaluated at the failing input): with
an absent document the extractor returns the empty sequence and the
processor the empty record list, but save_variations then subscripts the
absent notebook and fails with a TypeError instead of writing an empty
output document. -/
theorem C4_absent_document_crashes_on_save :
    extract_cells none = .ok [] ∧
    process_cells_with_function_call failing_remote [] = [] ∧
    save_variations (process_cells_with_function_call failing_remote []) none =
      .error .typeError :=
  ⟨rfl, rfl, rfl⟩

/-- Claim C8: for every successful remote call whose response contains at
least one completion, generate returns the text of the first completion
with surrounding whitespace trimmed. -/
theorem C8_success_returns_first_completion_trimmed
    (remote : CompletionRequest → Except ServiceError Completion)
    (message role language context : String)
    (preserve_structure include_documentation : Bool)
    (target_audience : String) (length_constraint : Option Int)
    (completion : Completion) (choice : CompletionChoice)
    (rest : List CompletionChoice)
    (hok : remote (mk_completion_request (build_prompt message role language
      context preserve_structure target_audience length_constraint
      include_documentation)) = .ok completion)
    (hchoices : completion.choices = choice :: rest) :
    generate_variation_with_function_call remote message role language context
      preserve_structure include_documentation target_audience length_constraint =
      pyStrip choice.text := by
  simp [generate_variation_with_function_call, hok, hchoices]

/-- Witness for C8 at a concrete succeeding remote. -/
theorem C8_witness :
    generate_variation_with_function_call ok_remote "print(1)" "code" "python"
      "This is part of a Jupyter notebook." true true "general" (some 150) =
      pyStrip "  print(2)  " :=
  C8_success_returns_first_completion_trimmed ok_remote "print(1)" "code"
    "python" "This is part of a Jupyter notebook." true true "general"
    (some 150) { choices := [{ text := "  print(2)  " }] }
    { text := "  print(2)  " } [] rfl rfl

/-- Claim C10: extract is total only under the precondition that a present
(truthy) document has the cells field: a truthy notebook without that field
makes extract fail with a key lookup error, while a falsy (absent or empty)
notebook argument yields the empty sequence. -/
theorem C10_extract_requires_cells_key (nb : Notebook) (nbOpt : Option Notebook)
    (htruthy : notebook_truthy (some nb) = true) (hmissing : nb.cells = none)
    (hfalsy : notebook_truthy nbOpt = false) :
    extract_cells (some nb) = .error .keyError ∧ extract_cells nbOpt = .ok [] := by
  constructor
  · simp [extract_cells, htruthy, hmissing]
  · cases nbOpt with
    | none => rfl
    | some nb2 => simp [extract_cells, hfalsy]

/-- Witness for C10: a notebook with metadata but no cells field, and the
absent notebook. -/
theorem C10_witness :
    extract_cells (some { cells := none, meta := [("nbformat", "4")] }) =
      .error .keyError ∧
    extract_cells none = .ok [] := by
  have h := C10_extract_requires_cells_key
    { cells := none, meta := [("nbformat", "4")] } none rfl rfl rfl
  exact h

/-- Claim C2: for every block with a recognized role, if the remote call
raises a service-level error or returns a response with no completions,
generate returns the original request message unchanged, the record of that
block has variation equal to its original text exactly, and the failure
never aborts or skips processing of other blocks (the output still has one
record per input cell, each the image of its own cell). -/
theorem C2_service_failure_falls_back_per_block
    (remote : CompletionRequest → Except ServiceError Completion)
    (cells : List Cell) (i : Nat) (cell : Cell)
    (hget : cells[i]? = some cell)
    (hrec : recognizedRole cell.cell_type = true)
    (hfail : remote_fails_or_empty remote (cell_request cell)) :
    generate_variation_with_function_call remote (strJoin cell.source)
      cell.cell_type "python" "This is part of a Jupyter notebook." true true
      "general" (some 150) = strJoin cell.source ∧
    (process_cells_with_function_call remote cells).length = cells.length ∧
    (process_cells_with_function_call remote cells)[i]? =
      some { role := cell.cell_type, original := strJoin cell.source,
             variation := strJoin cell.source } ∧
    (∀ j : Nat, (process_cells_with_function_call remote cells)[j]? =
      cells[j]?.map (vary_cell remote)) := by
  have hgen : generate_variation_with_function_call remote (strJoin cell.source)
      cell.cell_type "python" "This is part of a Jupyter notebook." true true
      "general" (some 150) = strJoin cell.source := by
    rcases hfail with ⟨e, he⟩ | ⟨c, hc, hch⟩
    · simp only [cell_request] at he
      simp [generate_variation_with_function_call, he]
    · simp only [cell_request] at hc
      simp [generate_variation_with_function_call, hc, hch]
  refine ⟨hgen, process_length remote cells, ?_, fun j => process_get? remote cells j⟩
  rw [process_get? remote cells i, hget]
  simp [vary_cell, hrec, hgen]

/-- Witness for C2: a one-cell input and a remote that always fails. -/
theorem C2_witness :
    generate_variation_with_function_call failing_remote
      (strJoin code_cell.source) code_cell.cell_type "python"
      "This is part of a Jupyter notebook." true true "general" (some 150) =
      strJoin code_cell.source ∧
    (process_cells_with_function_call failing_remote [code_cell]).length =
      [code_cell].length ∧
    (process_cells_with_function_call failing_remote [code_cell])[0]? =
      some { role := code_cell.cell_type, original := strJoin code_cell.source,
             variation := strJoin code_cell.source } ∧
    (∀ j : Nat, (process_cells_with_function_call failing_remote [code_cell])[j]? =
      [code_cell][j]?.map (vary_cell failing_remote)) :=
  C2_service_failure_falls_back_per_block failing_remote [code_cell] 0 code_cell
    (by simp) (by rfl) (Or.inl ⟨{ msg := "service unavailable" }, rfl⟩)

/-- Counterexample to claim C3 as stated: the variation list is empty while
the document has one block, so the lengths differ, yet save_variations does
not fail with IndexOutOfRange: the only block has an unrecognized role, so
the loop never subscripts the variation list and the document is written
out unchanged. -/
theorem C3_counterexample_mismatch_without_error :
    List.length ([] : List VariationRecord) ≠ List.length [raw_cell] ∧
    save_variations [] (some { cells := some [raw_cell], meta := [] }) =
      .ok { cells := some [raw_cell], meta := [] } :=
  ⟨by simp, rfl⟩

/-- Claim C3 as amended: rebuild fails with IndexOutOfRange exactly when
some block whose index is beyond the end of the variation list has a
recognized role; any other mismatch (extra variations, or uncovered blocks
all unrecognized) succeeds silently.  These are the only two outcomes, and
in the failing case no output document is produced. -/
theorem C3_rebuild_mismatch_characterization
    (variations : List VariationRecord) (nb : Notebook) (cs : List Cell)
    (hc : nb.cells = some cs) :
    (save_variations variations (some nb) = .error .indexOutOfRange ↔
      ∃ j cell, cs[j]? = some cell ∧ recognizedRole cell.cell_type = true ∧
        variations.length ≤ j) ∧
    ((∃ nb2, save_variations variations (some nb) = .ok nb2) ∨
      save_variations variations (some nb) = .error .indexOutOfRange) :=
  ⟨save_variations_error_iff variations nb cs hc,
   save_variations_outcomes variations nb cs hc⟩

/-- Witness for C3: with no variations and a single recognized block,
rebuild does fail with IndexOutOfRange. -/
theorem C3_witness :
    (save_variations [] (some { cells := some [code_cell], meta := [] }) =
        .error .indexOutOfRange ↔
      ∃ j cell, [code_cell][j]? = some cell ∧
        recognizedRole cell.cell_type = true ∧
        List.length ([] : List VariationRecord) ≤ j) ∧
    ((∃ nb2, save_variations [] (some { cells := some [code_cell], meta := [] }) =
        .ok nb2) ∨
      save_variations [] (some { cells := some [code_cell], meta := [] }) =
        .error .indexOutOfRange) :=
  C3_rebuild_mismatch_characterization [] { cells := some [code_cell], meta := [] }
    [code_cell] rfl

lemma notebook_truthy_of_cells (nb : Notebook) (cs : List Cell)
    (hc : nb.cells = some cs) : notebook_truthy (some nb) = true := by
  simp only [notebook_truthy, hc]

lemma extract_cells_of_cells (nb : Notebook) (cs : List Cell)
    (hc : nb.cells = some cs) : extract_cells (some nb) = .ok cs := by
  simp only [extract_cells, notebook_truthy_of_cells nb cs hc, if_true, hc]

/-- Claim C5: for every document with a block list, extracting the blocks of
rebuild(process(extract(D)), D) succeeds and yields the same block count and
the same ordered role sequence as extract(D). -/
theorem C5_roundtrip_preserves_count_and_roles
    (remote : CompletionRequest → Except ServiceError Completion)
    (nb : Notebook) (cs : List Cell) (hc : nb.cells = some cs) :
    extract_cells (some nb) = .ok cs ∧
    ∃ nb2 cs2,
      save_variations (process_cells_with_function_call remote cs) (some nb) =
        .ok nb2 ∧
      nb2.cells = some cs2 ∧
      extract_cells (some nb2) = .ok cs2 ∧
      cs2.length = cs.length ∧
      cs2.map Cell.cell_type = cs.map Cell.cell_type := by
  have hcover : cs.length ≤ (process_cells_with_function_call remote cs).length := by
    rw [process_length]
  obtain ⟨nb2, hsave⟩ := save_variations_ok_of_covers _ nb cs hc hcover
  obtain ⟨hmeta, cs2, hcs2, hlen, hspec⟩ := save_variations_ok_spec _ nb cs hc nb2 hsave
  have hroles : cs2.map Cell.cell_type = cs.map Cell.cell_type := by
    apply List.ext_getElem?
    intro n
    rw [List.getElem?_map, List.getElem?_map, hspec n]
    cases h : cs[n]? <;> simp [rebuilt_cell_cell_type]
  exact ⟨extract_cells_of_cells nb cs hc, nb2, cs2, hsave, hcs2,
    extract_cells_of_cells nb2 cs2 hcs2, hlen, hroles⟩

/-- Witness for C5: a two-cell document (one recognized, one not) with a
failing remote. -/
theorem C5_witness :
    extract_cells (some { cells := some [code_cell, raw_cell], meta := [] }) =
      .ok [code_cell, raw_cell] ∧
    ∃ nb2 cs2,
      save_variations
        (process_cells_with_function_call failing_remote [code_cell, raw_cell])
        (some { cells := some [code_cell, raw_cell], meta := [] }) = .ok nb2 ∧
      nb2.cells = some cs2 ∧
      extract_cells (some nb2) = .ok cs2 ∧
      cs2.length = [code_cell, raw_cell].length ∧
      cs2.map Cell.cell_type = [code_cell, raw_cell].map Cell.cell_type :=
  C5_roundtrip_preserves_count_and_roles failing_remote
    { cells := some [code_cell, raw_cell], meta := [] } [code_cell, raw_cell] rfl

/-- Claim C6: for every block whose role is outside the recognized set, the
record of that block has variation equal to the original source text, the
record does not depend on the remote service at all (no generation call is
observable), and after a successful rebuild the block is kept byte-identical
(the whole cell, in particular its content). -/
theorem C6_unrecognized_role_passes_through
    (remote remote2 : CompletionRequest → Except ServiceError Completion)
    (nb : Notebook) (cs : List Cell) (hc : nb.cells = some cs)
    (i : Nat) (cell : Cell) (hget : cs[i]? = some cell)
    (hrec : recognizedRole cell.cell_type = false)
    (variations : List VariationRecord) (nb2 : Notebook)
    (hsave : save_variations variations (some nb) = .ok nb2) :
    (process_cells_with_function_call remote cs)[i]? =
      some { role := cell.cell_type, original := strJoin cell.source,
             variation := strJoin cell.source } ∧
    (process_cells_with_function_call remote cs)[i]? =
      (process_cells_with_function_call remote2 cs)[i]? ∧
    ∃ cs2, nb2.cells = some cs2 ∧ cs2[i]? = some cell := by
  obtain ⟨-, cs2, hcs2, -, hspec⟩ := save_variations_ok_spec variations nb cs hc nb2 hsave
  refine ⟨?_, ?_, cs2, hcs2, ?_⟩
  · rw [process_get? remote cs i, hget]
    simp [vary_cell, hrec]
  · rw [process_get? remote cs i, process_get? remote2 cs i, hget]
    simp [vary_cell, hrec]
  · rw [hspec i, hget]
    simp [rebuilt_cell_unrecognized variations i cell hrec]

/-- Witness for C6: the unrecognized raw cell of a two-cell document; the
chosen variation list maps the code cell back to itself, so the rebuilt
notebook is the input notebook. -/
theorem C6_witness :
    (process_cells_with_function_call failing_remote [code_cell, raw_cell])[1]? =
      some { role := raw_cell.cell_type, original := strJoin raw_cell.source,
             variation := strJoin raw_cell.source } ∧
    (process_cells_with_function_call failing_remote [code_cell, raw_cell])[1]? =
      (process_cells_with_function_call ok_remote [code_cell, raw_cell])[1]? ∧
    ∃ cs2, ({ cells := some [code_cell, raw_cell], meta := [] } : Notebook).cells =
      some cs2 ∧ cs2[1]? = some raw_cell :=
  C6_unrecognized_role_passes_through failing_remote ok_remote
    { cells := some [code_cell, raw_cell], meta := [] } [code_cell, raw_cell] rfl
    1 raw_cell (by simp) (by rfl)
    [⟨"code", "print(1)", "print(1)"⟩, ⟨"raw", "unchanged", "unchanged"⟩]
    { cells := some [code_cell, raw_cell], meta := [] } (by rfl)

/-- Claim C7: for every block with a recognized role, if the recorded
variation for it is the text T, the rebuilt block content is the
line-preserving split of T, and the concatenation of the rebuilt fragments
equals T. -/
theorem C7_recognized_role_line_preserving_rebuild
    (nb : Notebook) (cs : List Cell) (hc : nb.cells = some cs)
    (i : Nat) (cell : Cell) (hget : cs[i]? = some cell)
    (hrec : recognizedRole cell.cell_type = true)
    (variations : List VariationRecord) (v : VariationRecord)
    (hv : variations[i]? = some v) (T : String) (hT : v.variation = T)
    (nb2 : Notebook) (hsave : save_variations variations (some nb) = .ok nb2) :
    ∃ cs2 cell2, nb2.cells = some cs2 ∧ cs2[i]? = some cell2 ∧
      cell2.source = splitlines_keepends T ∧
      strJoin cell2.source = T := by
  obtain ⟨-, cs2, hcs2, -, hspec⟩ :=
    save_variations_ok_spec variations nb cs hc nb2 hsave
  refine ⟨cs2, rebuilt_cell variations i cell, hcs2, ?_, ?_, ?_⟩
  · rw [hspec i, hget]
    rfl
  · simp [rebuilt_cell, hrec, hv, hT]
  · simp [rebuilt_cell, hrec, hv, hT, strJoin_splitlines_keepends]

/-- Witness for C7: one code cell whose recorded variation ends in a
newline. -/
theorem C7_witness :
    ∃ cs2 cell2,
      ({ cells := some [⟨"code", ["print(2)\n"], []⟩], meta := [] } : Notebook).cells =
        some cs2 ∧
      cs2[0]? = some cell2 ∧
      cell2.source = splitlines_keepends "print(2)\n" ∧
      strJoin cell2.source = "print(2)\n" :=
  C7_recognized_role_line_preserving_rebuild
    { cells := some [code_cell], meta := [] } [code_cell] rfl 0 code_cell
    (by simp) (by rfl) [⟨"code", "print(1)", "print(2)\n"⟩]
    ⟨"code", "print(1)", "print(2)\n"⟩ (by simp) "print(2)\n" rfl
    { cells := some [⟨"code", ["print(2)\n"], []⟩], meta := [] } (by rfl)

/-- Claim C9: a successful rebuild changes at most the content of recognized
blocks: the document metadata, the block count, and every block cell_type
and non-content metadata are preserved, and an unrecognized block is kept
entirely unchanged. -/
theorem C9_rebuild_preserves_frame
    (variations : List VariationRecord) (nb nb2 : Notebook) (cs : List Cell)
    (hc : nb.cells = some cs)
    (hsave : save_variations variations (some nb) = .ok nb2) :
    nb2.meta = nb.meta ∧
    ∃ cs2, nb2.cells = some cs2 ∧ cs2.length = cs.length ∧
      ∀ (i : Nat) (cell cell2 : Cell),
        cs[i]? = some cell → cs2[i]? = some cell2 →
        cell2.cell_type = cell.cell_type ∧ cell2.meta = cell.meta ∧
        (recognizedRole cell.cell_type = false → cell2 = cell) := by
  obtain ⟨hmeta, cs2, hcs2, hlen, hspec⟩ :=
    save_variations_ok_spec variations nb cs hc nb2 hsave
  refine ⟨hmeta, cs2, hcs2, hlen, ?_⟩
  intro i cell cell2 h1 h2
  rw [hspec i, h1] at h2
  simp at h2
  subst h2
  exact ⟨rebuilt_cell_cell_type variations i cell,
    rebuilt_cell_meta variations i cell,
    fun h => rebuilt_cell_unrecognized variations i cell h⟩

/-- Witness for C9: an unrecognized single-cell notebook with extra
metadata and an empty variation list rebuilds to itself. -/
theorem C9_witness :
    ({ cells := some [raw_cell], meta := [("nbformat", "4")] } : Notebook).meta =
      ({ cells := some [raw_cell], meta := [("nbformat", "4")] } : Notebook).meta ∧
    ∃ cs2,
      ({ cells := some [raw_cell], meta := [("nbformat", "4")] } : Notebook).cells =
        some cs2 ∧
      cs2.length = [raw_cell].length ∧
      ∀ (i : Nat) (cell cell2 : Cell),
        [raw_cell][i]? = some cell → cs2[i]? = some cell2 →
        cell2.cell_type = cell.cell_type ∧ cell2.meta = cell.meta ∧
        (recognizedRole cell.cell_type = false → cell2 = cell) :=
  C9_rebuild_preserves_frame []
    { cells := some [raw_cell], meta := [("nbformat", "4")] }
    { cells := some [raw_cell], meta := [("nbformat", "4")] }
    [raw_cell] rfl (by rfl)

end App
